import Mathlib

/-
Verification of the schema-driven property resolution and scanning subsystem
of the Tandem REST testbed.

The development is a shallow embedding of the JavaScript source:
  * `src/js/state/schemaCache.js` — the schema cache (fetchSchema,
    loadSchemaForModel, loadSchemasForFacility, getPropertyInfo, DataTypes);
  * `src/js/ui/stubUI.js` — the type-aware value input
    (renderTypeAwareInput and the validate closure of
    createTypeAwareValueInput);
  * the property stubs module (getQualifiedProperty, scanForProperty,
    findElementsWherePropValueEquals).

JavaScript machine behaviour that the source relies on is modelled
explicitly: strict equality (`===`) between values of different runtime
types is false, object/array truthiness, `String(...)` conversion,
`parseFloat`, and `new RegExp` construction failure.  Network calls are
modelled by an oracle parameter mapping a model URN to a fetch outcome.
-/

set_option linter.unusedVariables false

/-- An attribute descriptor row of a model schema:
`{ id, category, name, dataType }` as served by the schema endpoint and
cached by `schemaCache.js`. -/
structure Attr where
  id : String
  category : String
  name : String
  dataType : Int
deriving DecidableEq, Repr

/-- A JavaScript value as it flows into the `DataTypes` helpers of
`schemaCache.js`: either a raw `dataType` number (the documented use) or a
full attribute object (what the call sites in `stubUI.js` actually pass). -/
inductive DtArg where
  | num (n : Int)
  | obj (a : Attr)
deriving DecidableEq, Repr

/-- JavaScript strict equality (`===`) between a `DtArg` value and a number:
an object is never strictly equal to a number. -/
def dtArgEqNum (v : DtArg) (n : Int) : Bool :=
  match v with
  | .num m => m == n
  | .obj _ => false

/-- `DataTypes.INTEGER` from `schemaCache.js`. -/
def DataTypes.INTEGER : Int := 1

/-- `DataTypes.FLOAT` from `schemaCache.js`. -/
def DataTypes.FLOAT : Int := 2

/-- `DataTypes.BOOLEAN` from `schemaCache.js`. -/
def DataTypes.BOOLEAN : Int := 3

/-- `DataTypes.STRING` from `schemaCache.js`. -/
def DataTypes.STRING : Int := 20

/-- `DataTypes.isNumeric` from `schemaCache.js`:
`(dataType) => dataType === 1 || dataType === 2`. -/
def DataTypes.isNumeric (v : DtArg) : Bool :=
  dtArgEqNum v 1 || dtArgEqNum v 2

/-- `DataTypes.isBoolean` from `schemaCache.js`:
`(dataType) => dataType === 3`. -/
def DataTypes.isBoolean (v : DtArg) : Bool :=
  dtArgEqNum v 3

/-- `DataTypes.getName` from `schemaCache.js`: a `switch` on the argument
using strict equality, defaulting to `Unknown`. -/
def DataTypes.getName (v : DtArg) : String :=
  if dtArgEqNum v 1 then "Integer"
  else if dtArgEqNum v 2 then "Float"
  else if dtArgEqNum v 3 then "Boolean"
  else if dtArgEqNum v 20 then "String"
  else "Unknown"

/-- Numeric value of a list of decimal digit characters. -/
def digitsVal (cs : List Char) : Nat :=
  cs.foldl (fun a c => a * 10 + (c.toNat - 48)) 0

/-- A parsed JavaScript decimal number, represented exactly as
`mantissa / 10 ^ fracDigits`. -/
structure JsNumber where
  mantissa : Int
  fracDigits : Nat
deriving DecidableEq, Repr

/-- Model of JavaScript `parseFloat` on the decimal fragment used by the
testbed inputs: optional leading whitespace, optional sign, an integer
part and/or a fractional part; the longest valid numeric prefix is
parsed and any trailing garbage is ignored.  `none` models `NaN`
(no digits could be parsed).  Exponent suffixes are not modelled; no
verified property depends on them. -/
def parseFloat (s : String) : Option JsNumber :=
  let cs := s.data.dropWhile (fun c => c == ' ' || c == '\t' || c == '\n' || c == '\r')
  let signAndRest : Bool × List Char :=
    match cs with
    | '-' :: rest => (true, rest)
    | '+' :: rest => (false, rest)
    | _ => (false, cs)
  let neg := signAndRest.fst
  let cs1 := signAndRest.snd
  let intPart := cs1.takeWhile Char.isDigit
  let cs2 := cs1.dropWhile Char.isDigit
  let fracPart : List Char :=
    match cs2 with
    | '.' :: rest => rest.takeWhile Char.isDigit
    | _ => []
  if intPart.isEmpty && fracPart.isEmpty then none
  else
    let m : Int := (digitsVal intPart * 10 ^ fracPart.length + digitsVal fracPart : Nat)
    some { mantissa := if neg then -m else m, fracDigits := fracPart.length }

/-- Model of JavaScript `Number.isInteger` on a (non-NaN) numeric value:
the exact value has no fractional part. -/
def numberIsInteger (q : JsNumber) : Bool :=
  q.mantissa % ((10 : Int) ^ q.fracDigits) == 0

/-- A cache entry of the schema cache: the attribute list plus the
`Map(id -> attribute)` lookup index built by `loadSchemaForModel`. -/
structure CacheEntry where
  attributes : List Attr
  lookup : List (String × Attr)
deriving DecidableEq, Repr

/-- JavaScript `Map.prototype.set` on an insertion-ordered association
list: an existing key keeps its position and gets the new value, a new
key is appended. -/
def mapSet : List (String × Attr) → String → Attr → List (String × Attr)
  | [], k, v => [(k, v)]
  | p :: rest, k, v =>
    if p.fst == k then (k, v) :: rest else p :: mapSet rest k v

/-- The `lookup` index built in `loadSchemaForModel`:
`schema.attributes.forEach(attr => lookup.set(attr.id, attr))`. -/
def buildLookup (attrs : List Attr) : List (String × Attr) :=
  attrs.foldl (fun m a => mapSet m a.id a) []

/-- The schema cache: `modelURN -> CacheEntry`, insertion ordered the way a
plain JavaScript object enumerates its string keys. -/
abbrev Cache := List (String × CacheEntry)

/-- Property read on the cache object (`schemaCache[modelURN]`). -/
def cacheLookup (cache : Cache) (modelURN : String) : Option CacheEntry :=
  (cache.find? (fun p => p.fst == modelURN)).map (fun p => p.snd)

/-- Property write on the cache object
(`schemaCache[modelURN] = entry`): replace in place or append. -/
def cacheInsert : Cache → String → CacheEntry → Cache
  | [], k, v => [(k, v)]
  | p :: rest, k, v =>
    if p.fst == k then (k, v) :: rest else p :: cacheInsert rest k v

/-- Outcome of one schema fetch against the remote service, as observed by
`fetchSchema`: a 2xx response whose parsed body may or may not carry an
`attributes` array, or a thrown error (network failure, or a non-2xx
response which `fetchSchema` turns into a throw). -/
inductive FetchOutcome where
  | ok (data : Option (List Attr))
  | err
deriving DecidableEq, Repr

/-- `fetchSchema` from `schemaCache.js`: returns the parsed response data,
and catches any error (network failure or non-2xx response), returning
`{ attributes: [] }` instead of propagating. -/
def fetchSchema (oracle : String → FetchOutcome) (modelURN : String) : Option (List Attr) :=
  match oracle modelURN with
  | .ok data => data
  | .err => some []

/-- The cache entry built by `loadSchemaForModel` from fetched data:
`attributes: schema.attributes || []`, and the lookup map built only when
`schema.attributes` is present (an empty array is truthy in JavaScript,
so `some []` still builds an empty map). -/
def buildCacheEntry (schemaAttrs : Option (List Attr)) : CacheEntry :=
  { attributes := schemaAttrs.getD []
    lookup :=
      match schemaAttrs with
      | some attrs => buildLookup attrs
      | none => [] }

/-- The entry `loadSchemaForModel` resolves for a model: the memoized entry
when present, otherwise the entry built from a fresh fetch. -/
def loadSchemaForModelEntry (oracle : String → FetchOutcome) (cache : Cache)
    (modelURN : String) : CacheEntry :=
  match cacheLookup cache modelURN with
  | some e => e
  | none => buildCacheEntry (fetchSchema oracle modelURN)

/-- `loadSchemaForModel` from `schemaCache.js`: returns the resolved entry
and the cache after the call (memoized entries leave the cache unchanged;
a fresh fetch stores its entry). -/
def loadSchemaForModel (oracle : String → FetchOutcome) (cache : Cache)
    (modelURN : String) : CacheEntry × Cache :=
  match cacheLookup cache modelURN with
  | some e => (e, cache)
  | none =>
    let e := buildCacheEntry (fetchSchema oracle modelURN)
    (e, cacheInsert cache modelURN e)

/-- A model handle from the facility info `links` array. -/
structure ModelHandle where
  modelId : String
  label : Option String
deriving DecidableEq, Repr

/-- `loadSchemasForFacility` from `schemaCache.js`:
`models.map(model => loadSchemaForModel(model.modelId, region))` joined
with `Promise.all`.  Every mapped call runs its synchronous prefix — the
memoization check — before any fetch resolves, so each call observes the
pre-call cache; each un-memoized model then writes the entry built from
its own fetch.  A fetch failure is already absorbed inside `fetchSchema`,
so no call rejects and `Promise.all` always settles with every entry
written. -/
def loadSchemasForFacility (oracle : String → FetchOutcome)
    (models : List ModelHandle) (cache0 : Cache) : Cache :=
  models.foldl
    (fun c m =>
      match cacheLookup cache0 m.modelId with
      | some _ => c
      | none => cacheInsert c m.modelId (buildCacheEntry (fetchSchema oracle m.modelId)))
    cache0

/-- `getPropertyInfo` from `schemaCache.js`: walk all cached models in
insertion order and return the first attribute whose category and name
match, or `null`. -/
def getPropertyInfo (cache : Cache) (category propertyName : String) : Option Attr :=
  (cache.flatMap (fun p => p.snd.attributes)).find?
    (fun a => a.category == category && a.name == propertyName)

/-- JavaScript falsiness of an optional string input value
(`!x` for a missing input or its `.value`). -/
def jsStrFalsy (v : Option String) : Bool :=
  v.getD "" == ""

/-- Result shape of the validate closure:
`{ valid: true }` or `{ valid: false, error }`. -/
inductive ValidateResult where
  | valid
  | invalid (error : String)
deriving DecidableEq, Repr

/-- The `validate` closure of `createTypeAwareValueInput` in `stubUI.js`
(the value-validation operation for a property addressed by category and
name).  `categoryVal`/`propertyVal`/`value` are the `.value` reads of the
three inputs (`none` models a missing element, whose optional-chained
read is `undefined`).  Note the source passes the full `propInfo` object
to `DataTypes.isNumeric` and `DataTypes.getName`. -/
def coerceAndValidateValue (cache : Cache) (categoryVal propertyVal value : Option String) :
    ValidateResult :=
  if jsStrFalsy categoryVal || jsStrFalsy propertyVal then
    .invalid "Please select a category and property first."
  else
    let propInfo := getPropertyInfo cache (categoryVal.getD "") (propertyVal.getD "")
    if jsStrFalsy value && !(value == some "0") && !(value == some "false") then
      .invalid "Please enter a value."
    else
      match propInfo with
      | some info =>
        if DataTypes.isNumeric (.obj info) then
          match parseFloat (value.getD "") with
          | none =>
            .invalid ("Please enter a valid number for this "
              ++ DataTypes.getName (.obj info) ++ " property.")
          | some numValue =>
            if info.dataType == 2 && !numberIsInteger numValue then
              .invalid "Please enter a whole number (integer) for this property."
            else
              .valid
        else
          .valid
      | none => .valid

/-- The input element produced by `renderTypeAwareInput` in `stubUI.js`:
a True/False select for Boolean properties, a number input (with its
`step`) for numeric properties, or a free text input otherwise. -/
inductive RenderedInput where
  | boolSelect (options : List String)
  | numberInput (step : String)
  | textInput
deriving DecidableEq, Repr

/-- `renderTypeAwareInput` from `stubUI.js`, reduced to the kind of input
element it creates.  The source guards each typed branch with
`propInfo && DataTypes.isBoolean(propInfo)` resp.
`propInfo && DataTypes.isNumeric(propInfo)`, passing the full object. -/
def renderTypeAwareInput (propInfo : Option Attr) : RenderedInput :=
  match propInfo with
  | some a =>
    if DataTypes.isBoolean (.obj a) then
      .boolSelect ["true", "false"]
    else if DataTypes.isNumeric (.obj a) then
      .numberInput (if a.dataType == 2 then "1" else "any")
    else
      .textInput
  | none => .textInput

/-- A JavaScript value as stored in a scan-response row: `undefined`,
`null`, a boolean, an integer number, a string, or an array (the shape
history sequences and current-value wrappers take in scan responses).
An array is encoded as a chain of `arrCons` cells ending in `arrNil`
(see `JsVal.arrOf`), which keeps every recursion over the value tree
structural. -/
inductive JsVal where
  | undefined
  | null
  | bool (b : Bool)
  | num (n : Int)
  | str (s : String)
  | arrNil
  | arrCons (hd tl : JsVal)
deriving DecidableEq, Repr

/-- The encoding of a JavaScript array from the list of its elements. -/
def JsVal.arrOf (l : List JsVal) : JsVal :=
  l.foldr JsVal.arrCons JsVal.arrNil

/-- JavaScript truthiness of a `JsVal`; note an array is truthy even when
empty. -/
def truthy : JsVal → Bool
  | .undefined => false
  | .null => false
  | .bool b => b
  | .num n => n != 0
  | .str s => s != ""
  | .arrNil => true
  | .arrCons _ _ => true

/-- JavaScript strict equality (`===`) between a `JsVal` and a string: only
a string value with the same characters compares equal. -/
def jsStrictEqStr (v : JsVal) (s : String) : Bool :=
  match v with
  | .str t => t == s
  | _ => false

/-- Decimal digits of a natural number, most significant first; the fuel
argument (any bound on the digit count, such as the number itself) keeps
the recursion structural. -/
def natDigitsAux : Nat → Nat → List Char
  | 0, _ => []
  | _, 0 => []
  | fuel + 1, n => natDigitsAux fuel (n / 10) ++ [Char.ofNat (48 + n % 10)]

/-- Decimal rendering of a natural number. -/
def natToString (n : Nat) : String :=
  if n == 0 then "0" else String.mk (natDigitsAux n n)

/-- Decimal rendering of an integer, as JavaScript `String(...)` prints
an integral number. -/
def intToString : Int → String
  | .ofNat n => natToString n
  | .negSucc n => "-" ++ natToString (n + 1)

/-- JavaScript `String(v)` conversion; `Array.prototype.toString` joins
the elements with commas, printing `null` and `undefined` elements as
empty.  The `arrCons` case renders the head element and, when the tail
holds further elements, a comma followed by the tail's join. -/
def jsToString : JsVal → String
  | .undefined => "undefined"
  | .null => "null"
  | .bool b => if b then "true" else "false"
  | .num n => intToString n
  | .str s => s
  | .arrNil => ""
  | .arrCons hd tl =>
    (match hd with
     | .undefined => ""
     | .null => ""
     | h => jsToString h)
    ++ (match tl with
        | .arrNil => ""
        | t => "," ++ jsToString t)

/-- JavaScript `String.prototype.toLowerCase` on the ASCII fragment. -/
def jsToLowerCase (s : String) : String :=
  String.mk (s.data.map Char.toLower)

/-- JavaScript `v[0]`: head of an array, first character of a string,
`undefined` otherwise (including an empty array). -/
def jsIndexZero : JsVal → JsVal
  | .arrNil => .undefined
  | .arrCons hd _ => hd
  | .str s =>
    match s.data with
    | [] => .undefined
    | c :: _ => .str (String.mk [c])
  | _ => .undefined

/-- A data row of a scan response: a JavaScript object mapping field names
(the element key field `k` and the requested qualified identifiers) to
values. -/
structure ScanRow where
  fields : List (String × JsVal)

/-- JavaScript property read `row[name]`: the stored value, or `undefined`
when the object has no such property. -/
def rowGet (r : ScanRow) (name : String) : JsVal :=
  match r.fields.find? (fun p => p.fst == name) with
  | some p => p.snd
  | none => .undefined

/-- The qualified-property search shared by `getQualifiedProperty`,
`scanForProperty` and `findElementsWherePropValueEquals`: collect every
schema attribute whose category and name equal the query. -/
def findQualProps (attrs : List Attr) (categoryName propName : String) : List Attr :=
  attrs.filter (fun a => a.category == categoryName && a.name == propName)

/-- The per-model report `getQualifiedProperty` logs: not found, the single
resolved descriptor, or — after a warning — every matching descriptor. -/
inductive ResolutionReport where
  | notFound
  | unique (a : Attr)
  | ambiguous (props : List Attr)
deriving DecidableEq, Repr

/-- The reporting branch of `getQualifiedProperty` for one model:
`length === 1` logs the one descriptor, `length > 1` warns and logs every
descriptor, zero matches log a not-found message. -/
def reportQualProps (attrs : List Attr) (categoryName propName : String) : ResolutionReport :=
  match findQualProps attrs categoryName propName with
  | [] => .notFound
  | [a] => .unique a
  | a :: b :: rest => .ambiguous (a :: b :: rest)

/-- A `PropertyValue` record pushed by `scanForProperty`:
`{ key, prop, value }`. -/
structure PropValue where
  key : JsVal
  prop : String
  value : JsVal

/-- The inner loop of `scanForProperty` over one data row: for each
resolved qualified property, read the row entry, skip it when falsy, and
otherwise push one record whose value is the whole entry with history or
`prop[0]` without. -/
def extractRow (qualProps : List Attr) (includeHistory : Bool) (row : ScanRow) :
    List PropValue :=
  qualProps.filterMap (fun qp =>
    let prop := rowGet row qp.id
    if truthy prop then
      some { key := rowGet row "k"
             prop := qp.id
             value := if includeHistory then prop else jsIndexZero prop }
    else none)

/-- The value-extraction loop of `scanForProperty`
(`for (let k = 1; k < scanData.length; k++)`): iterate the scan response
from index 1, skip falsy rows, and collect each row's records.  A falsy
response element is modelled by `none`. -/
def extractPropValues (qualProps : List Attr) (includeHistory : Bool)
    (scanData : List (Option ScanRow)) : List PropValue :=
  (scanData.drop 1).flatMap (fun rowOpt =>
    match rowOpt with
    | some row => extractRow qualProps includeHistory row
    | none => [])

/-- A property record pushed by `findElementsWherePropValueEquals`:
`{ modelURN, key, prop, value }` with `value: prop[0]` (that scan is
always issued with `includeHistory: false`). -/
structure FindPropValue where
  modelURN : String
  key : JsVal
  prop : String
  value : JsVal

/-- The inner loop of `findElementsWherePropValueEquals` over one data
row. -/
def extractFindRow (modelURN : String) (qualProps : List Attr) (row : ScanRow) :
    List FindPropValue :=
  qualProps.filterMap (fun qp =>
    let prop := rowGet row qp.id
    if truthy prop then
      some { modelURN := modelURN
             key := rowGet row "k"
             prop := qp.id
             value := jsIndexZero prop }
    else none)

/-- The value-extraction loop of `findElementsWherePropValueEquals`
(`for (let k = 1; k < rawProps.length; k++)`). -/
def extractFindPropValues (modelURN : String) (qualProps : List Attr)
    (scanData : List (Option ScanRow)) : List FindPropValue :=
  (scanData.drop 1).flatMap (fun rowOpt =>
    match rowOpt with
    | some row => extractFindRow modelURN qualProps row
    | none => [])

/-- Abstract syntax of the regular-expression core modelled for
`new RegExp(matchStr)`: literals, escapes (kept as their literal
character), `.`, character classes, the `^`/`$` assertions, alternation,
concatenation and the `*`/`+`/`?` quantifiers (with optional lazy `?`
suffixes).  `fail` is the empty language, used only by the derivative
matcher. -/
inductive RegexAst where
  | fail
  | eps
  | anyChar
  | lit (c : Char)
  | cls (negated : Bool) (cs : List Char)
  | assertPos
  | alt (a b : RegexAst)
  | seq (a b : RegexAst)
  | star (a : RegexAst)
  | plus (a : RegexAst)
  | opt (a : RegexAst)
deriving DecidableEq, Repr

/-- Body of a character class after `[` (and after a leading `^`): raw
characters and escapes up to the closing `]`; an unterminated class is a
syntax error.  Range semantics inside a class are not modelled (the dash
is kept as a plain member); no verified property depends on it. -/
def parseClassBody : List Char → Option (List Char × List Char)
  | [] => none
  | ']' :: rest => some ([], rest)
  | '\\' :: [] => none
  | '\\' :: c :: rest =>
    (parseClassBody rest).map (fun pr => (c :: pr.fst, pr.snd))
  | c :: rest =>
    (parseClassBody rest).map (fun pr => (c :: pr.fst, pr.snd))

mutual

/-- One regex atom: a group, a class, an escape, `.`, an assertion or a
literal.  A quantifier with nothing to repeat, a lone `(`, an
unterminated group or class, and a trailing backslash are syntax
errors, as in `new RegExp`. -/
def parseAtom : Nat → List Char → Option (RegexAst × List Char)
  | 0, _ => none
  | _, [] => none
  | fuel + 1, c :: rest =>
    if c == '(' then
      match parseAlt fuel rest with
      | some (a, ')' :: rest2) => some (a, rest2)
      | _ => none
    else if c == '[' then
      match rest with
      | '^' :: rest1 => (parseClassBody rest1).map (fun pr => (.cls true pr.fst, pr.snd))
      | _ => (parseClassBody rest).map (fun pr => (.cls false pr.fst, pr.snd))
    else if c == '\\' then
      match rest with
      | [] => none
      | e :: rest1 => some (.lit e, rest1)
    else if c == '.' then some (.anyChar, rest)
    else if c == '^' then some (.assertPos, rest)
    else if c == '$' then some (.assertPos, rest)
    else if c == ')' || c == '|' || c == '*' || c == '+' || c == '?' then none
    else some (.lit c, rest)

/-- An atom followed by an optional quantifier (`*`, `+`, `?`), itself
followed by an optional lazy `?` marker. -/
def parsePost (fuel : Nat) (cs : List Char) : Option (RegexAst × List Char) :=
  match fuel with
  | 0 => none
  | fuel + 1 =>
    match parseAtom fuel cs with
    | none => none
    | some (a, rest) =>
      match rest with
      | '*' :: '?' :: r => some (.star a, r)
      | '*' :: r => some (.star a, r)
      | '+' :: '?' :: r => some (.plus a, r)
      | '+' :: r => some (.plus a, r)
      | '?' :: '?' :: r => some (.opt a, r)
      | '?' :: r => some (.opt a, r)
      | _ => some (a, rest)

/-- A (possibly empty) concatenation of quantified atoms, stopping at `|`,
at `)` or at the end of the pattern. -/
def parseCat (fuel : Nat) (cs : List Char) : Option (RegexAst × List Char) :=
  match fuel with
  | 0 => none
  | fuel + 1 =>
    match cs with
    | [] => some (.eps, [])
    | ')' :: _ => some (.eps, cs)
    | '|' :: _ => some (.eps, cs)
    | _ =>
      match parsePost fuel cs with
      | none => none
      | some (a, rest) =>
        match parseCat fuel rest with
        | none => none
        | some (b, rest2) => some (.seq a b, rest2)

/-- Alternation: concatenations separated by `|`. -/
def parseAlt (fuel : Nat) (cs : List Char) : Option (RegexAst × List Char) :=
  match fuel with
  | 0 => none
  | fuel + 1 =>
    match parseCat fuel cs with
    | none => none
    | some (a, rest) =>
      match rest with
      | '|' :: rest1 =>
        match parseAlt fuel rest1 with
        | some (b, rest2) => some (.alt a b, rest2)
        | none => none
      | _ => some (a, rest)

end

/-- Model of `new RegExp(matchStr)` / `new RegExp(matchStr, "i")`: parse
the whole pattern or fail with a syntax error (`none` models the thrown
`SyntaxError`).  The case-insensitivity flag never affects construction
validity, only matching. -/
def jsRegexCompile (pattern : String) : Option RegexAst :=
  let cs := pattern.data
  match parseAlt (8 * cs.length + 8) cs with
  | some (a, []) => some a
  | _ => none

/-- Character comparison under the optional `i` flag. -/
def charMatches (ignoreCase : Bool) (pat c : Char) : Bool :=
  if ignoreCase then pat.toLower == c.toLower else pat == c

/-- Nullability of a regex (whether it accepts the empty string).  The
`^`/`$` assertions are modelled as zero-width matches; no verified
property depends on match semantics, only on pattern validity. -/
def nullable : RegexAst → Bool
  | .fail => false
  | .eps => true
  | .anyChar => false
  | .lit _ => false
  | .cls _ _ => false
  | .assertPos => true
  | .alt a b => nullable a || nullable b
  | .seq a b => nullable a && nullable b
  | .star _ => true
  | .plus a => nullable a
  | .opt _ => true

/-- Brzozowski derivative of a regex with respect to one character. -/
def regexDeriv (ignoreCase : Bool) (c : Char) : RegexAst → RegexAst
  | .fail => .fail
  | .eps => .fail
  | .anyChar => .eps
  | .lit p => if charMatches ignoreCase p c then .eps else .fail
  | .cls negated cs =>
    if (cs.any (fun p => charMatches ignoreCase p c)) != negated then .eps else .fail
  | .assertPos => .fail
  | .alt a b => .alt (regexDeriv ignoreCase c a) (regexDeriv ignoreCase c b)
  | .seq a b =>
    if nullable a then
      .alt (.seq (regexDeriv ignoreCase c a) b) (regexDeriv ignoreCase c b)
    else
      .seq (regexDeriv ignoreCase c a) b
  | .star a => .seq (regexDeriv ignoreCase c a) (.star a)
  | .plus a => .seq (regexDeriv ignoreCase c a) (.star a)
  | .opt a => regexDeriv ignoreCase c a

/-- Whether some prefix of the character list matches the regex. -/
def matchesSomePre (ignoreCase : Bool) (r : RegexAst) : List Char → Bool
  | [] => nullable r
  | c :: rest => nullable r || matchesSomePre ignoreCase (regexDeriv ignoreCase c r) rest

/-- Whether the regex matches starting at some position of the list. -/
def regexTestList (ignoreCase : Bool) (r : RegexAst) : List Char → Bool
  | [] => nullable r
  | c :: rest =>
    matchesSomePre ignoreCase r (c :: rest) || regexTestList ignoreCase r rest

/-- Model of `RegExp.prototype.test`: unanchored search over the subject
string. -/
def regexTest (ignoreCase : Bool) (r : RegexAst) (s : String) : Bool :=
  regexTestList ignoreCase r s.data

/-- Outcome of the filtering step of `findElementsWherePropValueEquals`:
either the pattern-error path (the `catch` around `new RegExp`, which
logs a distinct diagnostic) or a list of matching records. -/
inductive MatchOutcome where
  | patternError
  | matches (props : List FindPropValue)

/-- The filtering step of `findElementsWherePropValueEquals` over the
extracted records: a regular-expression test against the value (with the
`i` flag when case-insensitive, and the `RegExp` construction error
caught), or exact string matching (lower-casing both sides of
`String(prop.value)` and `matchStr` when case-insensitive, strict
equality `prop.value === matchStr` otherwise). -/
def filterMatchingProps (propValues : List FindPropValue) (matchStr : String)
    (isRegEx isCaseInsensitive : Bool) : MatchOutcome :=
  if isRegEx then
    match jsRegexCompile matchStr with
    | none => .patternError
    | some r =>
      .matches (propValues.filter (fun p => regexTest isCaseInsensitive r (jsToString p.value)))
  else
    if isCaseInsensitive then
      .matches (propValues.filter (fun p =>
        jsToLowerCase (jsToString p.value) == jsToLowerCase matchStr))
    else
      .matches (propValues.filter (fun p => jsStrictEqStr p.value matchStr))

/-- The `matchingProps` list the function works with after filtering: the
pattern-error path sets it to the empty list. -/
def matchesOf : MatchOutcome → List FindPropValue
  | .patternError => []
  | .matches l => l

/-- Demo Integer-typed descriptor (`dataType = DataTypes.INTEGER`). -/
def countAttr : Attr :=
  { id := "z:5mQ", category := "Identity Data", name := "Count", dataType := 1 }

/-- Demo descriptor with `dataType = 2` (`FLOAT` per the `DataTypes`
constants, "Integer" per the comments in `stubUI.js`). -/
def widthAttr : Attr :=
  { id := "z:5mR", category := "Dimensions", name := "Width", dataType := 2 }

/-- Demo Boolean-typed descriptor (`dataType = DataTypes.BOOLEAN`). -/
def activeAttr : Attr :=
  { id := "z:bA", category := "Controls", name := "IsActive", dataType := 3 }

/-- Demo string-typed descriptor for the Mark property. -/
def markAttr1 : Attr :=
  { id := "n:n", category := "Identity Data", name := "Mark", dataType := 20 }

/-- Second demo descriptor for the same (category, name) pair as
`markAttr1`, with a different qualified identifier. -/
def markAttr2 : Attr :=
  { id := "z:xM", category := "Identity Data", name := "Mark", dataType := 20 }

/-- Demo descriptor that matches no query used below. -/
def commentAttr : Attr :=
  { id := "z:cM", category := "Identity Data", name := "Comments", dataType := 20 }

/-- Demo schema cache holding the demo attributes for one model. -/
def demoCache : Cache :=
  [("urn:adsk.dtm:model1",
    buildCacheEntry (some [countAttr, widthAttr, activeAttr, markAttr1]))]

/-- Demo scan data row: an element key and a history sequence under the
qualified identifier of `markAttr1`. -/
def demoRow : ScanRow :=
  ⟨[("k", .str "ELEM1"), ("n:n", .arrOf [.str "W-101", .str "W-100"])]⟩

/-- Demo scan response: a header object at index 0, then one data row. -/
def demoScan : List (Option ScanRow) :=
  [some ⟨[("v", .num 1)]⟩, some demoRow]

/-- Demo model handles for a three-model facility. -/
def modelA : ModelHandle := ⟨"urn:adsk.dtm:mA", some "Model A"⟩

/-- Second demo model handle. -/
def modelB : ModelHandle := ⟨"urn:adsk.dtm:mB", some "Model B"⟩

/-- Third demo model handle (unnamed). -/
def modelC : ModelHandle := ⟨"urn:adsk.dtm:mC", none⟩

/-- Demo fetch oracle: model B's fetch fails, the other fetches
succeed. -/
def demoOracle : String → FetchOutcome := fun urn =>
  if urn == "urn:adsk.dtm:mB" then .err
  else if urn == "urn:adsk.dtm:mA" then .ok (some [countAttr, markAttr1])
  else .ok (some [markAttr2])

/-- Demo extracted record with a string value. -/
def concretePv : FindPropValue :=
  ⟨"urn:adsk.dtm:mA", .str "ELEM1", "n:n", .str "Concrete"⟩

/-- Demo extracted record with a numeric value. -/
def numPv : FindPropValue :=
  ⟨"urn:adsk.dtm:mA", .str "ELEM2", "n:n", .num 3⟩

theorem cacheLookup_cacheInsert_self (c : Cache) (k : String) (v : CacheEntry) :
    cacheLookup (cacheInsert c k v) k = some v := by
  induction c with
  | nil => simp [cacheInsert, cacheLookup, List.find?]
  | cons p rest ih =>
    cases h : p.fst == k with
    | true => simp [cacheInsert, h, cacheLookup, List.find?]
    | false => simpa [cacheInsert, h, cacheLookup, List.find?] using ih

theorem cacheLookup_cacheInsert_of_ne (c : Cache) (k : String) (v : CacheEntry)
    (k' : String) (hne : k ≠ k') :
    cacheLookup (cacheInsert c k v) k' = cacheLookup c k' := by
  have hkk' : (k == k') = false := beq_eq_false_iff_ne.mpr hne
  induction c with
  | nil => simp [cacheInsert, cacheLookup, List.find?, hkk']
  | cons p rest ih =>
    cases h : p.fst == k with
    | true =>
      have hp : (p.fst == k') = false := by
        have : p.fst = k := by simpa using h
        simpa [this] using hkk'
      simp [cacheInsert, h, cacheLookup, List.find?, hkk', hp]
    | false =>
      cases h' : p.fst == k' with
      | true => simp [cacheInsert, h, cacheLookup, List.find?, h']
      | false => simpa [cacheInsert, h, cacheLookup, List.find?, h'] using ih

theorem foldl_cacheInsert_lookup (f : String → CacheEntry) :
    ∀ (models : List ModelHandle) (c : Cache) (urn : String),
    ((∃ m ∈ models, m.modelId = urn) ∨ cacheLookup c urn = some (f urn)) →
    cacheLookup (models.foldl (fun acc m => cacheInsert acc m.modelId (f m.modelId)) c) urn
      = some (f urn) := by
  intro models
  induction models with
  | nil =>
    intro c urn h
    rcases h with ⟨m, hm, _⟩ | h
    · exact absurd hm (List.not_mem_nil m)
    · simpa using h
  | cons m0 rest ih =>
    intro c urn h
    simp only [List.foldl_cons]
    apply ih
    by_cases hk : m0.modelId = urn
    · right
      rw [← hk]
      exact cacheLookup_cacheInsert_self c m0.modelId (f m0.modelId)
    · rcases h with ⟨m, hm, hmu⟩ | h
      · rcases List.mem_cons.mp hm with rfl | hm'
        · exact absurd hmu hk
        · exact Or.inl ⟨m, hm', hmu⟩
      · right
        rw [cacheLookup_cacheInsert_of_ne c m0.modelId (f m0.modelId) urn hk]
        exact h

theorem mem_extractRow_iff (qualProps : List Attr) (ih : Bool) (row : ScanRow)
    (pv : PropValue) :
    pv ∈ extractRow qualProps ih row ↔
      ∃ qp ∈ qualProps, truthy (rowGet row qp.id) = true
        ∧ pv = ⟨rowGet row "k", qp.id,
            if ih then rowGet row qp.id else jsIndexZero (rowGet row qp.id)⟩ := by
  unfold extractRow
  rw [List.mem_filterMap]
  constructor
  · rintro ⟨qp, hqp, hg⟩
    cases h : truthy (rowGet row qp.id) with
    | false => simp [h] at hg
    | true =>
      refine ⟨qp, hqp, h, ?_⟩
      simp only [h, if_true] at hg
      cases hg
      rfl
  · rintro ⟨qp, hqp, h, rfl⟩
    exact ⟨qp, hqp, by simp [h]⟩

theorem mem_extractFindRow_iff (modelURN : String) (qualProps : List Attr) (row : ScanRow)
    (pv : FindPropValue) :
    pv ∈ extractFindRow modelURN qualProps row ↔
      ∃ qp ∈ qualProps, truthy (rowGet row qp.id) = true
        ∧ pv = ⟨modelURN, rowGet row "k", qp.id, jsIndexZero (rowGet row qp.id)⟩ := by
  unfold extractFindRow
  rw [List.mem_filterMap]
  constructor
  · rintro ⟨qp, hqp, hg⟩
    cases h : truthy (rowGet row qp.id) with
    | false => simp [h] at hg
    | true =>
      refine ⟨qp, hqp, h, ?_⟩
      simp only [h, if_true] at hg
      cases hg
      rfl
  · rintro ⟨qp, hqp, h, rfl⟩
    exact ⟨qp, hqp, by simp [h]⟩

theorem extractRow_filter_length_le (qualProps : List Attr) (ih : Bool) (row : ScanRow)
    (id : String) (hnd : (qualProps.map Attr.id).Nodup) :
    ((extractRow qualProps ih row).filter (fun pv => pv.prop == id)).length ≤ 1 := by
  induction qualProps with
  | nil => simp [extractRow]
  | cons qp rest ihs =>
    rw [List.map_cons] at hnd
    obtain ⟨hnotin, hnd'⟩ := List.nodup_cons.mp hnd
    cases h : truthy (rowGet row qp.id) with
    | false =>
      have hstep : extractRow (qp :: rest) ih row = extractRow rest ih row := by
        simp [extractRow, List.filterMap_cons, h]
      rw [hstep]
      exact ihs hnd'
    | true =>
      have hstep : extractRow (qp :: rest) ih row
          = (⟨rowGet row "k", qp.id,
              if ih then rowGet row qp.id else jsIndexZero (rowGet row qp.id)⟩ : PropValue)
            :: extractRow rest ih row := by
        simp [extractRow, List.filterMap_cons, h]
      rw [hstep, List.filter_cons]
      cases hid : (qp.id == id) with
      | false =>
        simpa [hid] using ihs hnd'
      | true =>
        have hid' : qp.id = id := by simpa using hid
        have htail : (extractRow rest ih row).filter (fun pv => pv.prop == id) = [] := by
          rw [List.filter_eq_nil_iff]
          intro pv hpv
          obtain ⟨qp', hqp', _, rfl⟩ := (mem_extractRow_iff rest ih row pv).mp hpv
          simp only [decide_eq_true_eq, beq_iff_eq]
          intro hcontra
          exact hnotin (hid' ▸ hcontra ▸ List.mem_map_of_mem Attr.id hqp')
        simp [hid, htail]

/-- C1: the claim states that for an Integer-typed attribute descriptor the
value-validation operation (the validate closure of the type-aware value
input) rejects the raw input "3.5" with the distinct "must be a whole
number" reason and accepts "3" and "-3".  Evaluating the embedded source
confirms the acceptance half but refutes the rejection half: the closure
passes the full propInfo object to DataTypes.isNumeric, whose strict
equality against the numbers 1 and 2 is always false on an object, so
the numeric branch — including the whole-number rejection — is
unreachable and "3.5" is accepted for an Integer-typed descriptor, under
either the DataTypes.INTEGER = 1 constant or the dataType = 2 reading of
the stubUI.js comments.  The parseFloat conjuncts show the acceptance is
not an artifact of the numeric model: "3.5" parses to the non-integral
35 / 10. -/
theorem c1_integer_validation_unreachable :
    coerceAndValidateValue demoCache (some "Identity Data") (some "Count") (some "3.5")
      = .valid
    ∧ coerceAndValidateValue demoCache (some "Dimensions") (some "Width") (some "3.5")
      = .valid
    ∧ coerceAndValidateValue demoCache (some "Identity Data") (some "Count") (some "3")
      = .valid
    ∧ coerceAndValidateValue demoCache (some "Identity Data") (some "Count") (some "-3")
      = .valid
    ∧ (∀ a : Attr, DataTypes.isNumeric (.obj a) = false)
    ∧ parseFloat "3.5" = some ⟨35, 1⟩
    ∧ numberIsInteger ⟨35, 1⟩ = false
    ∧ countAttr.dataType = DataTypes.INTEGER := by
  refine ⟨by decide, by decide, by decide, by decide, fun a => rfl, by decide, by decide, rfl⟩

/-- C7: the claim states that for a Boolean-typed attribute descriptor the
value input/validation path (renderTypeAwareInput plus the validate
closure) accepts only the tokens "true" and "false" and rejects inputs
such as "yes".  Evaluating the embedded source refutes this:
renderTypeAwareInput passes the full propInfo object to
DataTypes.isBoolean, whose strict equality against the number 3 is
always false on an object, so the True/False select branch is
unreachable, every descriptor gets the free text input, and the validate
closure (which has no Boolean check at all) accepts "yes". -/
theorem c7_boolean_input_unreachable :
    renderTypeAwareInput (some activeAttr) = .textInput
    ∧ coerceAndValidateValue demoCache (some "Controls") (some "IsActive") (some "yes")
      = .valid
    ∧ (∀ propInfo : Option Attr, renderTypeAwareInput propInfo = .textInput)
    ∧ (∀ a : Attr, DataTypes.isBoolean (.obj a) = false)
    ∧ activeAttr.dataType = DataTypes.BOOLEAN := by
  refine ⟨rfl, by decide, ?_, fun a => rfl, rfl⟩
  intro propInfo
  cases propInfo with
  | none => rfl
  | some a => rfl

/-- C2: for every scan response, the extraction loops of scanForProperty
and findElementsWherePropValueEquals iterate rows from index 1, so the
header at index 0 is never emitted as a PropertyValue: the extraction
result is invariant under changing the header entry, a response holding
only a header yields no records, and every extracted record originates
from a data row found at an index of the form i + 1. -/
theorem c2_header_row_skipped (qualProps : List Attr) (includeHistory : Bool) :
    (∀ (h₁ h₂ : Option ScanRow) (rows : List (Option ScanRow)),
        extractPropValues qualProps includeHistory (h₁ :: rows)
          = extractPropValues qualProps includeHistory (h₂ :: rows))
    ∧ (∀ hd : Option ScanRow, extractPropValues qualProps includeHistory [hd] = [])
    ∧ (∀ (modelURN : String) (h₁ h₂ : Option ScanRow) (rows : List (Option ScanRow)),
        extractFindPropValues modelURN qualProps (h₁ :: rows)
          = extractFindPropValues modelURN qualProps (h₂ :: rows))
    ∧ (∀ (modelURN : String) (hd : Option ScanRow),
        extractFindPropValues modelURN qualProps [hd] = [])
    ∧ (∀ (scanData : List (Option ScanRow)) (pv : PropValue),
        pv ∈ extractPropValues qualProps includeHistory scanData →
        ∃ (i : Nat) (row : ScanRow), scanData[i + 1]? = some (some row)
          ∧ pv ∈ extractRow qualProps includeHistory row) := by
  refine ⟨fun h₁ h₂ rows => rfl, fun hd => rfl, fun u h₁ h₂ rows => rfl,
    fun u hd => rfl, ?_⟩
  intro scanData pv hpv
  unfold extractPropValues at hpv
  rw [List.mem_flatMap] at hpv
  obtain ⟨rowOpt, hrow, hpv⟩ := hpv
  cases rowOpt with
  | none => simp at hpv
  | some row =>
    obtain ⟨j, hj⟩ := List.mem_iff_getElem?.mp hrow
    rw [List.getElem?_drop] at hj
    refine ⟨j, row, ?_, hpv⟩
    rw [Nat.add_comm]
    exact hj

/-- Witness for C2 at a concrete scan response: the record extracted from
demoScan (header at index 0, data row at index 1) originates from an
index of the form i + 1. -/
theorem c2_header_row_skipped_witness :
    ∃ (i : Nat) (row : ScanRow), demoScan[i + 1]? = some (some row)
      ∧ (⟨.str "ELEM1", "n:n", .str "W-101"⟩ : PropValue)
          ∈ extractRow [markAttr1] false row :=
  (c2_header_row_skipped [markAttr1] false).2.2.2.2 demoScan
    ⟨.str "ELEM1", "n:n", .str "W-101"⟩ (List.Mem.head _)

/-- C3: resolving a (category, name) query against a model's attributes
returns exactly the descriptors whose category and name equal the query
and no others; several matches within one model are all reported through
the ambiguous (warning) branch, never collapsed to a single descriptor;
and a pair matching nothing yields the not-found report rather than an
error. -/
theorem c3_resolution_exact (attrs : List Attr) (categoryName propName : String) (a : Attr) :
    (a ∈ findQualProps attrs categoryName propName
       ↔ a ∈ attrs ∧ a.category = categoryName ∧ a.name = propName)
    ∧ (1 < (findQualProps attrs categoryName propName).length →
        reportQualProps attrs categoryName propName
          = .ambiguous (findQualProps attrs categoryName propName))
    ∧ (findQualProps attrs categoryName propName = [] →
        reportQualProps attrs categoryName propName = .notFound)
    ∧ (∀ u, findQualProps attrs categoryName propName = [u] →
        reportQualProps attrs categoryName propName = .unique u) := by
  refine ⟨?_, ?_, ?_, ?_⟩
  · rw [findQualProps, List.mem_filter]
    simp [and_assoc]
  · intro hlen
    unfold reportQualProps
    cases hq : findQualProps attrs categoryName propName with
    | nil => rw [hq] at hlen; simp at hlen
    | cons x xs =>
      cases xs with
      | nil => rw [hq] at hlen; simp at hlen
      | cons y ys => rfl
  · intro hq
    unfold reportQualProps
    rw [hq]
  · intro u hq
    unfold reportQualProps
    rw [hq]

/-- Witness for C3 at a concrete schema: the two Mark descriptors are both
reported through the ambiguous branch, and an absent pair reports
not-found. -/
theorem c3_resolution_exact_witness :
    reportQualProps [markAttr1, markAttr2, commentAttr] "Identity Data" "Mark"
      = .ambiguous (findQualProps [markAttr1, markAttr2, commentAttr] "Identity Data" "Mark")
    ∧ reportQualProps [markAttr1, markAttr2, commentAttr] "Identity Data" "Nope"
      = .notFound :=
  ⟨(c3_resolution_exact [markAttr1, markAttr2, commentAttr] "Identity Data" "Mark"
      markAttr1).2.1 (by decide),
   (c3_resolution_exact [markAttr1, markAttr2, commentAttr] "Identity Data" "Nope"
      markAttr1).2.2.1 (by decide)⟩

/-- C4: a failed schema fetch is caught and yields an empty attribute list
rather than a propagated error, and loadSchemasForFacility starting from
an empty cache leaves a populated cache entry for every given model
handle — each entry built from that model's own fetch alone — so one
model's failure affects no other model's entry. -/
theorem c4_fetch_fails_soft (oracle : String → FetchOutcome)
    (models : List ModelHandle) (m : ModelHandle) (urn : String) :
    (oracle urn = .err →
       fetchSchema oracle urn = some []
       ∧ (buildCacheEntry (fetchSchema oracle urn)).attributes = [])
    ∧ (m ∈ models →
       cacheLookup (loadSchemasForFacility oracle models []) m.modelId
         = some (buildCacheEntry (fetchSchema oracle m.modelId))) := by
  constructor
  · intro herr
    refine ⟨by simp [fetchSchema, herr], by simp [fetchSchema, herr, buildCacheEntry]⟩
  · intro hm
    have hfold : loadSchemasForFacility oracle models []
        = models.foldl
            (fun acc mh =>
              cacheInsert acc mh.modelId (buildCacheEntry (fetchSchema oracle mh.modelId)))
            [] := rfl
    rw [hfold]
    exact foldl_cacheInsert_lookup (fun u => buildCacheEntry (fetchSchema oracle u))
      models [] m.modelId (Or.inl ⟨m, hm, rfl⟩)

/-- Witness for C4 at the demo oracle and three model handles, where model
B's fetch fails: every model gets a cache entry, model B's entry carries
an empty attribute list, and model A's entry carries its fetched
attributes. -/
theorem c4_fetch_fails_soft_witness :
    fetchSchema demoOracle "urn:adsk.dtm:mB" = some []
    ∧ cacheLookup (loadSchemasForFacility demoOracle [modelA, modelB, modelC] [])
        "urn:adsk.dtm:mB" = some (buildCacheEntry (fetchSchema demoOracle "urn:adsk.dtm:mB"))
    ∧ cacheLookup (loadSchemasForFacility demoOracle [modelA, modelB, modelC] [])
        "urn:adsk.dtm:mA" = some (buildCacheEntry (fetchSchema demoOracle "urn:adsk.dtm:mA"))
    ∧ cacheLookup (loadSchemasForFacility demoOracle [modelA, modelB, modelC] [])
        "urn:adsk.dtm:mC" = some (buildCacheEntry (fetchSchema demoOracle "urn:adsk.dtm:mC"))
    ∧ (buildCacheEntry (fetchSchema demoOracle "urn:adsk.dtm:mA")).attributes
        = [countAttr, markAttr1] :=
  ⟨((c4_fetch_fails_soft demoOracle [modelA, modelB, modelC] modelB "urn:adsk.dtm:mB").1
      (by decide)).1,
   (c4_fetch_fails_soft demoOracle [modelA, modelB, modelC] modelB "urn:adsk.dtm:mB").2
      (by decide),
   (c4_fetch_fails_soft demoOracle [modelA, modelB, modelC] modelA "urn:adsk.dtm:mA").2
      (by decide),
   (c4_fetch_fails_soft demoOracle [modelA, modelB, modelC] modelC "urn:adsk.dtm:mC").2
      (by decide),
   by decide⟩

/-- C5: scanForProperty emits, per row and qualified identifier, at most one
PropertyValue when the resolved identifiers are distinct (the data-model
invariant within one model); when the row's entry is truthy, the single
emitted record carries the entry's element 0 (the single current value)
without history and the whole recorded entry (the full sequence) with
history. -/
theorem c5_history_flag_semantics (qualProps : List Attr) (row : ScanRow) (id : String) :
    ((qualProps.map Attr.id).Nodup →
       ∀ includeHistory : Bool,
         ((extractRow qualProps includeHistory row).filter
           (fun pv => pv.prop == id)).length ≤ 1)
    ∧ (∀ qp ∈ qualProps, truthy (rowGet row qp.id) = true →
        (⟨rowGet row "k", qp.id, rowGet row qp.id⟩ : PropValue)
          ∈ extractRow qualProps true row)
    ∧ (∀ qp ∈ qualProps, truthy (rowGet row qp.id) = true →
        (⟨rowGet row "k", qp.id, jsIndexZero (rowGet row qp.id)⟩ : PropValue)
          ∈ extractRow qualProps false row) := by
  refine ⟨fun hnd ih => extractRow_filter_length_le qualProps ih row id hnd, ?_, ?_⟩
  · intro qp hqp htr
    exact (mem_extractRow_iff qualProps true row _).mpr ⟨qp, hqp, htr, by simp⟩
  · intro qp hqp htr
    exact (mem_extractRow_iff qualProps false row _).mpr ⟨qp, hqp, htr, by simp⟩

/-- Witness for C5 on the demo row: the per-identifier record count is at
most one, the history record carries the full stored sequence, and the
non-history record carries only its element 0. -/
theorem c5_history_flag_semantics_witness :
    ((extractRow [markAttr1] false demoRow).filter (fun pv => pv.prop == "n:n")).length ≤ 1
    ∧ (⟨rowGet demoRow "k", markAttr1.id, rowGet demoRow markAttr1.id⟩ : PropValue)
        ∈ extractRow [markAttr1] true demoRow
    ∧ (⟨rowGet demoRow "k", markAttr1.id, jsIndexZero (rowGet demoRow markAttr1.id)⟩ : PropValue)
        ∈ extractRow [markAttr1] false demoRow :=
  ⟨(c5_history_flag_semantics [markAttr1] demoRow "n:n").1 (by decide) false,
   (c5_history_flag_semantics [markAttr1] demoRow "n:n").2.1 markAttr1 (by decide) rfl,
   (c5_history_flag_semantics [markAttr1] demoRow "n:n").2.2 markAttr1 (by decide) rfl⟩

/-- C6: an invalid regular-expression pattern passed to the filtering step
of findElementsWherePropValueEquals with isRegEx = true does not escape
the call: the RegExp construction error is caught and surfaced as the
pattern-error outcome — a constructor distinct from every zero-match
outcome — and the match list for the invocation is empty. -/
theorem c6_invalid_regex_caught (propValues : List FindPropValue) (matchStr : String)
    (isCaseInsensitive : Bool) (hbad : jsRegexCompile matchStr = none) :
    filterMatchingProps propValues matchStr true isCaseInsensitive = .patternError
    ∧ matchesOf (filterMatchingProps propValues matchStr true isCaseInsensitive) = []
    ∧ (∀ l : List FindPropValue, MatchOutcome.patternError ≠ MatchOutcome.matches l) := by
  refine ⟨?_, ?_, fun l h => MatchOutcome.noConfusion h⟩
  · simp [filterMatchingProps, hbad]
  · simp [filterMatchingProps, hbad, matchesOf]

/-- Witness for C6 at the concrete invalid pattern "(" (an unterminated
group): construction fails, the outcome is the pattern error, and the
match list is empty. -/
theorem c6_invalid_regex_caught_witness :
    filterMatchingProps [concretePv] "(" true false = .patternError
    ∧ matchesOf (filterMatchingProps [concretePv] "(" true false) = [] :=
  ⟨(c6_invalid_regex_caught [concretePv] "(" false (by decide)).1,
   (c6_invalid_regex_caught [concretePv] "(" false (by decide)).2.1⟩

/-- C8: with isRegEx = false, the case-insensitive branch keeps a record
exactly when the lower-cased stringified value equals the lower-cased
match string — so "Concrete" matches "CONCRETE" — while the
case-sensitive branch keeps a record exactly when the value strictly
equals the match string — so "Concrete" does not match "CONCRETE". -/
theorem c8_case_sensitivity (s matchStr modelURN : String) (key : JsVal) (prop : String) :
    filterMatchingProps [⟨modelURN, key, prop, .str s⟩] matchStr false true
      = .matches (if jsToLowerCase s = jsToLowerCase matchStr
                  then [⟨modelURN, key, prop, .str s⟩] else [])
    ∧ filterMatchingProps [⟨modelURN, key, prop, .str s⟩] matchStr false false
      = .matches (if s = matchStr then [⟨modelURN, key, prop, .str s⟩] else [])
    ∧ filterMatchingProps [concretePv] "CONCRETE" false true = .matches [concretePv]
    ∧ filterMatchingProps [concretePv] "CONCRETE" false false = .matches [] := by
  have hci : ∀ (mURN : String) (k : JsVal) (pr t m : String),
      filterMatchingProps [⟨mURN, k, pr, .str t⟩] m false true
        = .matches (if jsToLowerCase t = jsToLowerCase m
                    then [⟨mURN, k, pr, .str t⟩] else []) := by
    intro mURN k pr t m
    by_cases h : jsToLowerCase t = jsToLowerCase m
    · have hb : (jsToLowerCase t == jsToLowerCase m) = true := beq_iff_eq.mpr h
      simp [filterMatchingProps, List.filter, jsToString, hb, h]
    · have hb : (jsToLowerCase t == jsToLowerCase m) = false := beq_eq_false_iff_ne.mpr h
      simp [filterMatchingProps, List.filter, jsToString, hb, h]
  have hcs : ∀ (mURN : String) (k : JsVal) (pr t m : String),
      filterMatchingProps [⟨mURN, k, pr, .str t⟩] m false false
        = .matches (if t = m then [⟨mURN, k, pr, .str t⟩] else []) := by
    intro mURN k pr t m
    by_cases h : t = m
    · have hb : (t == m) = true := beq_iff_eq.mpr h
      simp [filterMatchingProps, List.filter, jsStrictEqStr, hb, h]
    · have hb : (t == m) = false := beq_eq_false_iff_ne.mpr h
      simp [filterMatchingProps, List.filter, jsStrictEqStr, hb, h]
  refine ⟨hci modelURN key prop s matchStr, hcs modelURN key prop s matchStr, ?_, ?_⟩
  · rw [show concretePv = ⟨"urn:adsk.dtm:mA", .str "ELEM1", "n:n", .str "Concrete"⟩ from rfl,
      hci]
    simp [show jsToLowerCase "Concrete" = jsToLowerCase "CONCRETE" from by decide]
  · rw [show concretePv = ⟨"urn:adsk.dtm:mA", .str "ELEM1", "n:n", .str "Concrete"⟩ from rfl,
      hcs]
    simp [show ("Concrete" : String) ≠ "CONCRETE" from by decide]

/-- C9: a (row, qualified identifier) pair produces a record only when the
row object and the row's entry under the identifier are truthy: a falsy
entry produces no record for that identifier, every produced record's
key and value derive from a truthy entry of the row itself, and a
response whose data rows are all falsy extracts nothing — no error and
no null-valued record. -/
theorem c9_falsy_skipped (qualProps : List Attr) (includeHistory : Bool) (row : ScanRow)
    (id : String) :
    (truthy (rowGet row id) = false →
       (extractRow qualProps includeHistory row).filter (fun pv => pv.prop == id) = [])
    ∧ (∀ pv ∈ extractRow qualProps includeHistory row,
        truthy (rowGet row pv.prop) = true
        ∧ pv.key = rowGet row "k"
        ∧ pv.value = (if includeHistory then rowGet row pv.prop
                      else jsIndexZero (rowGet row pv.prop)))
    ∧ (∀ scanData : List (Option ScanRow), (∀ r ∈ scanData.drop 1, r = none) →
        extractPropValues qualProps includeHistory scanData = []) := by
  refine ⟨?_, ?_, ?_⟩
  · intro hfalse
    rw [List.filter_eq_nil_iff]
    intro pv hpv
    obtain ⟨qp, hqp, htr, rfl⟩ := (mem_extractRow_iff _ _ _ _).mp hpv
    intro hcontra
    have hqid : qp.id = id := by simpa using hcontra
    rw [hqid, hfalse] at htr
    exact Bool.false_ne_true htr
  · intro pv hpv
    obtain ⟨qp, hqp, htr, rfl⟩ := (mem_extractRow_iff _ _ _ _).mp hpv
    exact ⟨htr, rfl, rfl⟩
  · intro scanData hall
    unfold extractPropValues
    rw [List.flatMap_eq_nil_iff]
    intro r hr
    rw [hall r hr]

/-- Witness for C9 on concrete data: an identifier absent from the demo row
contributes no record, the record extracted for the present identifier
satisfies the truthiness and value equations, and a response whose only
data row is falsy extracts nothing. -/
theorem c9_falsy_skipped_witness :
    (extractRow [markAttr1] false demoRow).filter (fun pv => pv.prop == "z:zz") = []
    ∧ (truthy (rowGet demoRow (⟨.str "ELEM1", "n:n", .str "W-101"⟩ : PropValue).prop) = true
        ∧ (⟨.str "ELEM1", "n:n", .str "W-101"⟩ : PropValue).key = rowGet demoRow "k"
        ∧ (⟨.str "ELEM1", "n:n", .str "W-101"⟩ : PropValue).value
            = (if false then rowGet demoRow (⟨.str "ELEM1", "n:n", .str "W-101"⟩ : PropValue).prop
               else jsIndexZero (rowGet demoRow (⟨.str "ELEM1", "n:n", .str "W-101"⟩ : PropValue).prop)))
    ∧ extractPropValues [markAttr1] false [some demoRow, none] = [] :=
  ⟨(c9_falsy_skipped [markAttr1] false demoRow "z:zz").1 (by decide),
   (c9_falsy_skipped [markAttr1] false demoRow "z:zz").2.1
     ⟨.str "ELEM1", "n:n", .str "W-101"⟩ (List.Mem.head _),
   (c9_falsy_skipped [markAttr1] false demoRow "z:zz").2.2 [some demoRow, none]
     (fun r hr => List.mem_singleton.mp hr)⟩

/-- C10: with isRegEx = false, the case-sensitive branch uses strict
equality with no stringification — a non-string value never equals the
match string, so the number 3 does not match the pattern "3" — while the
case-insensitive branch stringifies the value first and therefore does
match the number 3 against "3". -/
theorem c10_strict_vs_stringified (matchStr : String) (n : Int) (b : Bool)
    (l : List JsVal) :
    jsStrictEqStr (.num n) matchStr = false
    ∧ jsStrictEqStr (.bool b) matchStr = false
    ∧ jsStrictEqStr .null matchStr = false
    ∧ jsStrictEqStr .undefined matchStr = false
    ∧ jsStrictEqStr (JsVal.arrOf l) matchStr = false
    ∧ filterMatchingProps [numPv] "3" false false = .matches []
    ∧ filterMatchingProps [numPv] "3" false true = .matches [numPv]
    ∧ jsToString (JsVal.num 3) = "3" := by
  refine ⟨rfl, rfl, rfl, rfl, ?_, rfl, ?_, by decide⟩
  · cases l with
    | nil => rfl
    | cons a as => rfl
  · have hb : (jsToLowerCase (jsToString numPv.value) == jsToLowerCase "3") = true := by
      decide
    simp [filterMatchingProps, List.filter, hb]
